import Mathlib

/-!
Shallow embedding of the DCF77 decoding engine (src/dcf77.py) and
verification of its specified properties.

Machine integers in the source are Python arbitrary-precision ints,
modelled as `Nat`; millisecond timestamps are modelled as `Int`
(`time.ticks_diff(a, b)` becomes plain subtraction `a - b`).
-/

namespace DCF77

/-- Number of set bits of a natural number (binary population count). -/
def popcount : Nat → Nat
  | 0 => 0
  | n + 1 => (n + 1) % 2 + popcount ((n + 1) / 2)
decreasing_by omega

theorem popcount_rec (n : Nat) : popcount n = n % 2 + popcount (n / 2) := by
  cases n with
  | zero => simp [popcount]
  | succ m => rw [popcount]

theorem popcount_zero : popcount 0 = 0 := by simp [popcount]

theorem popcount_one : popcount 1 = 1 := by
  rw [popcount_rec]
  norm_num [popcount_zero]

theorem xor_div_two (a b : Nat) : (a ^^^ b) / 2 = (a / 2) ^^^ (b / 2) := by
  apply Nat.eq_of_testBit_eq
  intro i
  simp [Nat.testBit_div_two]

theorem xor_mod_two (a b : Nat) : (a ^^^ b) % 2 = (a % 2 + b % 2) % 2 := by
  have h : (a ^^^ b).testBit 0 = ((a.testBit 0) ^^ (b.testBit 0)) :=
    Nat.testBit_xor a b 0
  simp only [Nat.testBit_zero] at h
  rcases Nat.mod_two_eq_zero_or_one a with ha | ha <;>
    rcases Nat.mod_two_eq_zero_or_one b with hb | hb <;>
    rcases Nat.mod_two_eq_zero_or_one (a ^^^ b) with hc | hc <;>
    simp [ha, hb, hc] at h ⊢

theorem popcount_xor (a b : Nat) :
    popcount (a ^^^ b) % 2 = (popcount a + popcount b) % 2 := by
  induction a using Nat.strong_induction_on generalizing b with
  | _ a ih =>
    cases a with
    | zero => simp [popcount_zero]
    | succ n =>
      have hdiv : (n + 1) / 2 < n + 1 := Nat.div_lt_self (Nat.succ_pos n) (by omega)
      have ih2 := ih ((n + 1) / 2) hdiv (b / 2)
      have e1 : popcount ((n + 1) ^^^ b)
          = ((n + 1) ^^^ b) % 2 + popcount (((n + 1) / 2) ^^^ (b / 2)) := by
        rw [popcount_rec, xor_div_two]
      have e2 : popcount (n + 1) = (n + 1) % 2 + popcount ((n + 1) / 2) :=
        popcount_rec _
      have e3 : popcount b = b % 2 + popcount (b / 2) := popcount_rec _
      have e4 := xor_mod_two (n + 1) b
      omega

theorem popcount_split (k a b : Nat) (h : a < 2 ^ k) :
    popcount (a + 2 ^ k * b) = popcount a + popcount b := by
  induction k generalizing a b with
  | zero =>
    have ha : a = 0 := by omega
    simp [ha, popcount_zero]
  | succ k ih =>
    have hpow : 2 ^ (k + 1) = 2 * 2 ^ k := by ring
    have h2 : (a + 2 ^ (k + 1) * b) % 2 = a % 2 := by
      have : 2 ^ (k + 1) * b = 2 * (2 ^ k * b) := by rw [hpow]; ring
      omega
    have h3 : (a + 2 ^ (k + 1) * b) / 2 = a / 2 + 2 ^ k * b := by
      have : 2 ^ (k + 1) * b = 2 * (2 ^ k * b) := by rw [hpow]; ring
      omega
    have h4 : a / 2 < 2 ^ k := by omega
    rw [popcount_rec (a + 2 ^ (k + 1) * b), h2, h3, ih _ _ h4, popcount_rec a]
    omega

theorem popcount_two_pow (i : Nat) : popcount (2 ^ i) = 1 := by
  have h := popcount_split i 0 1 (Nat.pos_pow_of_pos i (by omega))
  simpa [popcount_zero, popcount_one] using h

theorem xor_mod_two_pow (a b k : Nat) :
    (a ^^^ b) % 2 ^ k = (a % 2 ^ k) ^^^ (b % 2 ^ k) := by
  apply Nat.eq_of_testBit_eq
  intro i
  by_cases h : i < k <;> simp [Nat.testBit_mod_two_pow, h]

/-- One step `x ^= x >> k` of the XOR-halving parity fold in
`DCF77Decoder.parity_error`. -/
def foldStep (k x : Nat) : Nat := x ^^^ (x >>> k)

theorem parity_step (k x : Nat) :
    popcount (foldStep k x % 2 ^ k) % 2 = popcount (x % 2 ^ (2 * k)) % 2 := by
  have h1 : foldStep k x % 2 ^ k = (x % 2 ^ k) ^^^ ((x >>> k) % 2 ^ k) :=
    xor_mod_two_pow x (x >>> k) k
  have h2 : x >>> k = x / 2 ^ k := Nat.shiftRight_eq_div_pow x k
  have hp : 0 < 2 ^ k := Nat.pos_pow_of_pos k (by omega)
  have h3 : x % 2 ^ (2 * k) = x % 2 ^ k + 2 ^ k * (x / 2 ^ k % 2 ^ k) := by
    have e : 2 ^ (2 * k) = 2 ^ k * 2 ^ k := by rw [two_mul, pow_add]
    rw [e, Nat.mod_mul]
  have h4 : popcount (x % 2 ^ k + 2 ^ k * (x / 2 ^ k % 2 ^ k))
      = popcount (x % 2 ^ k) + popcount (x / 2 ^ k % 2 ^ k) :=
    popcount_split k _ _ (Nat.mod_lt _ hp)
  have h5 := popcount_xor (x % 2 ^ k) ((x / 2 ^ k) % 2 ^ k)
  rw [h1, h2, h3, h4]
  omega

/-- `DCF77Decoder.parity_error`: fold `data` with
`data ^= data >> 16; data ^= data >> 8; data ^= data >> 4;
data ^= data >> 2; data ^= data >> 1` and report whether bit 0 is set. -/
def parity_error (data : Nat) : Bool :=
  foldStep 1 (foldStep 2 (foldStep 4 (foldStep 8 (foldStep 16 data)))) &&& 1 == 1

theorem popcount_lt_two (x : Nat) (h : x < 2) : popcount x = x := by
  rw [popcount_rec]
  interval_cases x <;> simp [popcount_zero]

theorem parity_error_iff (x : Nat) (h : x < 2 ^ 32) :
    parity_error x = true ↔ popcount x % 2 = 1 := by
  have e1 := parity_step 16 x
  have e2 := parity_step 8 (foldStep 16 x)
  have e3 := parity_step 4 (foldStep 8 (foldStep 16 x))
  have e4 := parity_step 2 (foldStep 4 (foldStep 8 (foldStep 16 x)))
  have e5 := parity_step 1 (foldStep 2 (foldStep 4 (foldStep 8 (foldStep 16 x))))
  have hx : x % 2 ^ (2 * 16) = x := by
    have : (2 : Nat) ^ (2 * 16) = 2 ^ 32 := by norm_num
    rw [this]
    exact Nat.mod_eq_of_lt h
  rw [hx] at e1
  set F := foldStep 1 (foldStep 2 (foldStep 4 (foldStep 8 (foldStep 16 x)))) with hF
  have hmod : F % 2 ^ 1 = F % 2 := by norm_num
  have hsmall : popcount (F % 2) = F % 2 :=
    popcount_lt_two _ (Nat.mod_lt _ (by omega))
  have hchain : F % 2 % 2 = popcount x % 2 := by
    rw [← hsmall] at *
    have n2 : (2 : Nat) ^ (2 * 1) = 2 ^ 2 := by norm_num
    have n4 : (2 : Nat) ^ (2 * 2) = 2 ^ 4 := by norm_num
    have n8 : (2 : Nat) ^ (2 * 4) = 2 ^ 8 := by norm_num
    have n16 : (2 : Nat) ^ (2 * 8) = 2 ^ 16 := by norm_num
    rw [n2] at e5; rw [n4] at e4; rw [n8] at e3; rw [n16] at e2
    rw [hmod] at e5
    omega
  have hb : parity_error x = (F % 2 == 1) := by
    rw [parity_error, ← hF, Nat.and_one_is_mod]
  rw [hb]
  simp only [beq_iff_eq]
  omega

/-- Error values raised by the engine (the `DCF77Error` exception hierarchy).
`parityError` carries the span value interpolated into the `ParityError`
message; `incompleteBeacon` carries the raw buffer from the
`IncompleteBeaconError` message. -/
inductive DCF77Err where
  | parityError (data : Nat)
  | incompleteBeacon (buffer : Nat)
  deriving DecidableEq

/-- The 8-bit minute span `(beacon >> 21) & 255` whose parity
`decode_minute` checks. -/
def minuteSpan (beacon : Nat) : Nat := (beacon >>> 21) &&& 255

/-- The 7-bit hour span `(beacon >> 29) & 127` whose parity
`decode_hour` checks. -/
def hourSpan (beacon : Nat) : Nat := (beacon >>> 29) &&& 127

/-- The 23-bit date span `(beacon >> 36) & 8388607` whose parity
`decode_date` checks. -/
def dateSpan (beacon : Nat) : Nat := (beacon >>> 36) &&& 8388607

/-- `DCF77Decoder.raise_on_parity_error`. -/
def raise_on_parity_error (data : Nat) : Except DCF77Err Unit :=
  if parity_error data then .error (.parityError data) else .ok ()

/-- `DCF77Decoder.decode_minute`. -/
def decode_minute (beacon : Nat) : Except DCF77Err Nat := do
  raise_on_parity_error (minuteSpan beacon)
  pure (((beacon >>> 21) &&& 15) + ((beacon >>> 25) &&& 7) * 10)

/-- `DCF77Decoder.decode_hour`. -/
def decode_hour (beacon : Nat) : Except DCF77Err Nat := do
  raise_on_parity_error (hourSpan beacon)
  pure (((beacon >>> 29) &&& 15) + ((beacon >>> 33) &&& 3) * 10)

/-- `DCF77Decoder._decode_day`. -/
def decode_day (beacon : Nat) : Nat :=
  ((beacon >>> 36) &&& 15) + ((beacon >>> 40) &&& 3) * 10

/-- `DCF77Decoder._decode_month`. -/
def decode_month (beacon : Nat) : Nat :=
  ((beacon >>> 45) &&& 15) + ((beacon >>> 49) &&& 1) * 10

/-- `DCF77Decoder._decode_year`. -/
def decode_year (beacon : Nat) : Nat :=
  2000 + ((beacon >>> 50) &&& 15) + ((beacon >>> 54) &&& 15) * 10

/-- `DCF77Decoder.decode_date`. -/
def decode_date (beacon : Nat) : Except DCF77Err (Nat × Nat × Nat) := do
  raise_on_parity_error (dateSpan beacon)
  pure (decode_year beacon, decode_month beacon, decode_day beacon)

/-- The decoded timestamp tuple
`(year, month, day, 0, hour, minute, 0, 0)` returned by
`DCF77Decoder.__call__`, with fields named positionally after the
`machine.RTC.datetime` convention it is fed into. -/
structure Timestamp where
  year : Nat
  month : Nat
  day : Nat
  weekday : Nat
  hour : Nat
  minute : Nat
  second : Nat
  subsecond : Nat
  deriving DecidableEq

/-- `DCF77Decoder.__call__`: date parity is checked first, then hour,
then minute (Python evaluates the tuple elements left to right). -/
def decoderCall (beacon : Nat) : Except DCF77Err Timestamp := do
  let (year, month, day) ← decode_date beacon
  let hour ← decode_hour beacon
  let minute ← decode_minute beacon
  pure ⟨year, month, day, 0, hour, minute, 0, 0⟩

instance {e a : Type} [DecidableEq e] [DecidableEq a] : DecidableEq (Except e a) := fun x y =>
  match x, y with
  | .ok u, .ok v =>
    if h : u = v then isTrue (by rw [h]) else isFalse (fun hh => by cases hh; exact h rfl)
  | .error u, .error v =>
    if h : u = v then isTrue (by rw [h]) else isFalse (fun hh => by cases hh; exact h rfl)
  | .ok _, .error _ => isFalse (fun hh => by cases hh)
  | .error _, .ok _ => isFalse (fun hh => by cases hh)

/-- C2: the XOR-halving fold used by the decoder's parity check returns 1
exactly when the population count of the input is odd; `parity_error x`
holds iff `popcount x % 2 ≠ 0`.  Stated for all inputs below `2 ^ 23`,
which covers the decoder's 8-, 7- and 23-bit spans. -/
theorem parity_error_popcount (x : Nat) (h : x < 2 ^ 23) :
    parity_error x = true ↔ popcount x % 2 ≠ 0 := by
  have hh := parity_error_iff x (lt_trans h (by norm_num))
  rw [hh]
  omega

theorem parity_error_popcount_witness :
    (7 : Nat) < 2 ^ 23 ∧ (parity_error 7 = true ↔ popcount 7 % 2 ≠ 0) :=
  ⟨by norm_num, parity_error_popcount 7 (by norm_num)⟩

/- Mask lemmas: the numeric masks in the source are `2 ^ k - 1`. -/

theorem and_255 (x : Nat) : x &&& 255 = x % 256 := by
  have h := Nat.and_pow_two_sub_one_eq_mod x 8
  norm_num at h
  exact h

theorem and_127 (x : Nat) : x &&& 127 = x % 128 := by
  have h := Nat.and_pow_two_sub_one_eq_mod x 7
  norm_num at h
  exact h

theorem and_8388607 (x : Nat) : x &&& 8388607 = x % 8388608 := by
  have h := Nat.and_pow_two_sub_one_eq_mod x 23
  norm_num at h
  exact h

theorem and_15 (x : Nat) : x &&& 15 = x % 16 := by
  have h := Nat.and_pow_two_sub_one_eq_mod x 4
  norm_num at h
  exact h

theorem and_7 (x : Nat) : x &&& 7 = x % 8 := by
  have h := Nat.and_pow_two_sub_one_eq_mod x 3
  norm_num at h
  exact h

theorem and_3 (x : Nat) : x &&& 3 = x % 4 := by
  have h := Nat.and_pow_two_sub_one_eq_mod x 2
  norm_num at h
  exact h

/-- Even parity bit over the data bits of a BCD block (popcount mod 2),
used to construct frames for the round-trip property. -/
def parityBit (data : Nat) : Nat := popcount data % 2

/-- Minute BCD data bits of a frame: units in bits 21..24, tens in
bits 25..27 (relative offsets 0 and 4 of the minute span). -/
def minuteData (minute : Nat) : Nat := minute % 10 + 16 * (minute / 10)

/-- Hour BCD data bits: units at offset 0, tens at offset 4 of the
hour span (bits 29..34). -/
def hourData (hour : Nat) : Nat := hour % 10 + 16 * (hour / 10)

/-- Date BCD data bits relative to bit 36: day units at 0, day tens
at 4, month units at 9, month tens at 13, year units at 14, year tens
at 18; weekday bits (offsets 6..8) are left zero. -/
def dateData (year month day : Nat) : Nat :=
  day % 10 + 16 * (day / 10) + 512 * (month % 10) + 8192 * (month / 10)
    + 16384 * ((year - 2000) % 10) + 262144 * ((year - 2000) / 10)

/-- A 59-bit frame built from calendar fields with BCD encoding and
correct even-parity bits at bit 28 (minute), 35 (hour) and 58 (date). -/
def encodeFrame (year month day hour minute : Nat) : Nat :=
  2 ^ 21 * ((minuteData minute + 128 * parityBit (minuteData minute))
    + 2 ^ 8 * ((hourData hour + 64 * parityBit (hourData hour))
      + 2 ^ 7 * (dateData year month day
        + 4194304 * parityBit (dateData year month day))))

theorem parityBit_le_one (data : Nat) : parityBit data ≤ 1 := by
  have h : popcount data % 2 < 2 := Nat.mod_lt _ (by omega)
  unfold parityBit
  omega

/-- A data block extended by its even-parity bit folds to even parity. -/
theorem parity_error_with_bit (dta k : Nat) (hd : dta < 2 ^ k) (hk : k ≤ 31) :
    parity_error (dta + 2 ^ k * parityBit dta) = false := by
  have hp : parityBit dta ≤ 1 := parityBit_le_one dta
  have hlt : dta + 2 ^ k * parityBit dta < 2 ^ 32 := by
    have h1 : 2 ^ k * parityBit dta ≤ 2 ^ k * 1 :=
      Nat.mul_le_mul_left _ hp
    have h2 : (2 : Nat) ^ k ≤ 2 ^ 31 := Nat.pow_le_pow_right (by omega) hk
    have h3 : (2 : Nat) ^ 31 + 2 ^ 31 ≤ 2 ^ 32 := by norm_num
    omega
  have hiff := parity_error_iff _ hlt
  have hsplit := popcount_split k dta (parityBit dta) hd
  have hsm : popcount (parityBit dta) = parityBit dta :=
    popcount_lt_two _ (by omega)
  have heven : popcount (dta + 2 ^ k * parityBit dta) % 2 = 0 := by
    rw [hsplit, hsm]
    unfold parityBit
    omega
  cases hb : parity_error (dta + 2 ^ k * parityBit dta)
  · rfl
  · exact absurd (hiff.mp hb) (by omega)

/-- Field extraction arithmetic for an encoded frame, over abstract
BCD digits and parity bits. -/
theorem frame_fields (mu mt hu ht du dt ou ot yu yt a b c E : Nat)
    (hE : E = 2097152 * (mu + 16 * mt + 128 * a
      + 256 * (hu + 16 * ht + 64 * b
        + 128 * (du + 16 * dt + 512 * ou + 8192 * ot + 16384 * yu
          + 262144 * yt + 4194304 * c))))
    (h1 : mu ≤ 9) (h2 : mt ≤ 5) (h3 : hu ≤ 9) (h4 : ht ≤ 2)
    (h5 : du ≤ 9) (h6 : dt ≤ 3) (h7 : ou ≤ 9) (h8 : ot ≤ 1)
    (h9 : yu ≤ 9) (h10 : yt ≤ 9) (ha : a ≤ 1) (hb : b ≤ 1) (hc : c ≤ 1) :
    E / 2097152 % 256 = mu + 16 * mt + 128 * a
    ∧ E / 2097152 % 16 = mu
    ∧ E / 33554432 % 8 = mt
    ∧ E / 536870912 % 128 = hu + 16 * ht + 64 * b
    ∧ E / 536870912 % 16 = hu
    ∧ E / 8589934592 % 4 = ht
    ∧ E / 68719476736 % 8388608
        = du + 16 * dt + 512 * ou + 8192 * ot + 16384 * yu + 262144 * yt
          + 4194304 * c
    ∧ E / 68719476736 % 16 = du
    ∧ E / 1099511627776 % 4 = dt
    ∧ E / 35184372088832 % 16 = ou
    ∧ E / 562949953421312 % 2 = ot
    ∧ E / 1125899906842624 % 16 = yu
    ∧ E / 18014398509481984 % 16 = yt := by
  subst hE
  refine ⟨?_, ?_, ?_, ?_, ?_, ?_, ?_, ?_, ?_, ?_, ?_, ?_, ?_⟩ <;> omega

/-- C1: for every choice of calendar fields with year in [2000,2099], month
in [1,12], day in [1,31], hour in [0,23] and minute in [0,59], building a
59-bit frame with BCD encoding and correct even-parity bits at positions
28, 35 and 58 and decoding it yields exactly the same five fields back. -/
theorem decode_roundtrip (y mo d hr mi : Nat)
    (hy1 : 2000 ≤ y) (hy2 : y ≤ 2099) (hmo1 : 1 ≤ mo) (hmo2 : mo ≤ 12)
    (hd1 : 1 ≤ d) (hd2 : d ≤ 31) (hhr : hr ≤ 23) (hmi : mi ≤ 59) :
    decoderCall (encodeFrame y mo d hr mi)
      = .ok ⟨y, mo, d, 0, hr, mi, 0, 0⟩ := by
  have hEeq : encodeFrame y mo d hr mi
      = 2097152 * (mi % 10 + 16 * (mi / 10) + 128 * parityBit (minuteData mi)
        + 256 * (hr % 10 + 16 * (hr / 10) + 64 * parityBit (hourData hr)
          + 128 * (d % 10 + 16 * (d / 10) + 512 * (mo % 10) + 8192 * (mo / 10)
            + 16384 * ((y - 2000) % 10) + 262144 * ((y - 2000) / 10)
            + 4194304 * parityBit (dateData y mo d)))) := by
    simp only [encodeFrame, minuteData, hourData, dateData]
    norm_num
  obtain ⟨c1, c2, c3, c4, c5, c6, c7, c8, c9, c10, c11, c12, c13⟩ :=
    frame_fields (mi % 10) (mi / 10) (hr % 10) (hr / 10) (d % 10) (d / 10)
      (mo % 10) (mo / 10) ((y - 2000) % 10) ((y - 2000) / 10)
      (parityBit (minuteData mi)) (parityBit (hourData hr))
      (parityBit (dateData y mo d)) _ hEeq
      (by omega) (by omega) (by omega) (by omega) (by omega) (by omega)
      (by omega) (by omega) (by omega) (by omega)
      (parityBit_le_one _) (parityBit_le_one _) (parityBit_le_one _)
  set E := encodeFrame y mo d hr mi with hE
  -- span values
  have sm : minuteSpan E = minuteData mi + 2 ^ 7 * parityBit (minuteData mi) := by
    rw [minuteSpan, Nat.shiftRight_eq_div_pow, and_255]
    norm_num
    rw [c1, minuteData]
  have sh : hourSpan E = hourData hr + 2 ^ 6 * parityBit (hourData hr) := by
    rw [hourSpan, Nat.shiftRight_eq_div_pow, and_127]
    norm_num
    rw [c4, hourData]
  have sd : dateSpan E = dateData y mo d + 2 ^ 22 * parityBit (dateData y mo d) := by
    rw [dateSpan, Nat.shiftRight_eq_div_pow, and_8388607]
    norm_num
    rw [c7, dateData]
  -- parity checks pass
  have pm : parity_error (minuteSpan E) = false := by
    rw [sm]
    exact parity_error_with_bit _ 7 (by simp only [minuteData]; omega) (by omega)
  have ph : parity_error (hourSpan E) = false := by
    rw [sh]
    exact parity_error_with_bit _ 6 (by simp only [hourData]; omega) (by omega)
  have pd : parity_error (dateSpan E) = false := by
    rw [sd]
    exact parity_error_with_bit _ 22 (by simp only [dateData]; omega) (by omega)
  -- field values
  have vmu : (E >>> 21) &&& 15 = mi % 10 := by
    rw [Nat.shiftRight_eq_div_pow, and_15]; norm_num; rw [c2]
  have vmt : (E >>> 25) &&& 7 = mi / 10 := by
    rw [Nat.shiftRight_eq_div_pow, and_7]; norm_num; rw [c3]
  have vhu : (E >>> 29) &&& 15 = hr % 10 := by
    rw [Nat.shiftRight_eq_div_pow, and_15]; norm_num; rw [c5]
  have vht : (E >>> 33) &&& 3 = hr / 10 := by
    rw [Nat.shiftRight_eq_div_pow, and_3]; norm_num; rw [c6]
  have vdu : (E >>> 36) &&& 15 = d % 10 := by
    rw [Nat.shiftRight_eq_div_pow, and_15]; norm_num; rw [c8]
  have vdt : (E >>> 40) &&& 3 = d / 10 := by
    rw [Nat.shiftRight_eq_div_pow, and_3]; norm_num; rw [c9]
  have vou : (E >>> 45) &&& 15 = mo % 10 := by
    rw [Nat.shiftRight_eq_div_pow, and_15]; norm_num; rw [c10]
  have vot : (E >>> 49) &&& 1 = mo / 10 := by
    rw [Nat.shiftRight_eq_div_pow, Nat.and_one_is_mod]; norm_num; rw [c11]
  have vyu : (E >>> 50) &&& 15 = (y - 2000) % 10 := by
    rw [Nat.shiftRight_eq_div_pow, and_15]; norm_num; rw [c12]
  have vyt : (E >>> 54) &&& 15 = (y - 2000) / 10 := by
    rw [Nat.shiftRight_eq_div_pow, and_15]; norm_num; rw [c13]
  -- decode functions
  have hm : decode_minute E = .ok mi := by
    simp [decode_minute, raise_on_parity_error, pm, vmu, vmt]
    omega
  have hh : decode_hour E = .ok hr := by
    simp [decode_hour, raise_on_parity_error, ph, vhu, vht]
    omega
  have hdd : decode_date E = .ok (y, mo, d) := by
    simp [decode_date, raise_on_parity_error, pd, decode_year, decode_month,
      decode_day, vdu, vdt, vou, vot, vyu, vyt]
    refine ⟨by omega, by omega, by omega⟩
  simp only [decoderCall, hdd, hh, hm]
  rfl

theorem decode_roundtrip_witness :
    decoderCall (encodeFrame 2025 10 12 3 4)
      = .ok ⟨2025, 10, 12, 0, 3, 4, 0, 0⟩ :=
  decode_roundtrip 2025 10 12 3 4 (by norm_num) (by norm_num) (by norm_num)
    (by norm_num) (by norm_num) (by norm_num) (by norm_num) (by norm_num)

theorem shift_mask_xor_outside (f b s w : Nat) (h : b < s ∨ s + w ≤ b) :
    ((f ^^^ 2 ^ b) >>> s) % 2 ^ w = (f >>> s) % 2 ^ w := by
  apply Nat.eq_of_testBit_eq
  intro i
  by_cases hi : i < w
  · have hb : b ≠ s + i := by omega
    simp [Nat.testBit_mod_two_pow, Nat.testBit_shiftRight, Nat.testBit_xor,
      Nat.testBit_two_pow, hi, hb]
  · simp [Nat.testBit_mod_two_pow, hi]

theorem shift_mask_xor_inside (f b s w : Nat) (h1 : s ≤ b) (h2 : b < s + w) :
    ((f ^^^ 2 ^ b) >>> s) % 2 ^ w = ((f >>> s) % 2 ^ w) ^^^ 2 ^ (b - s) := by
  apply Nat.eq_of_testBit_eq
  intro i
  by_cases hi : i < w
  · by_cases hc : b = s + i
    · have hc2 : b - s = i := by omega
      simp [Nat.testBit_mod_two_pow, Nat.testBit_shiftRight, Nat.testBit_xor,
        Nat.testBit_two_pow, hi, hc, hc2]
    · have hc2 : b - s ≠ i := fun hh => hc (by omega)
      simp [Nat.testBit_mod_two_pow, Nat.testBit_shiftRight, Nat.testBit_xor,
        Nat.testBit_two_pow, hi, hc, hc2]
  · have hb : b - s ≠ i := by omega
    simp [Nat.testBit_mod_two_pow, Nat.testBit_xor, Nat.testBit_two_pow, hi, hb]

theorem minuteSpan_mod (f : Nat) : minuteSpan f = (f >>> 21) % 2 ^ 8 := by
  rw [minuteSpan, and_255]
  norm_num

theorem hourSpan_mod (f : Nat) : hourSpan f = (f >>> 29) % 2 ^ 7 := by
  rw [hourSpan, and_127]
  norm_num

theorem dateSpan_mod (f : Nat) : dateSpan f = (f >>> 36) % 2 ^ 23 := by
  rw [dateSpan, and_8388607]
  norm_num

theorem minuteSpan_lt (f : Nat) : minuteSpan f < 2 ^ 8 := by
  rw [minuteSpan_mod]
  exact Nat.mod_lt _ (by norm_num)

theorem hourSpan_lt (f : Nat) : hourSpan f < 2 ^ 7 := by
  rw [hourSpan_mod]
  exact Nat.mod_lt _ (by norm_num)

theorem dateSpan_lt (f : Nat) : dateSpan f < 2 ^ 23 := by
  rw [dateSpan_mod]
  exact Nat.mod_lt _ (by norm_num)

/-- Flipping one bit of the input flips the result of the parity fold. -/
theorem parity_error_flip (x i : Nat) (hx : x < 2 ^ 23) (hi : i ≤ 22) :
    parity_error (x ^^^ 2 ^ i) = ! parity_error x := by
  have hxl : x < 2 ^ 32 := lt_trans hx (by norm_num)
  have hil : (2 : Nat) ^ i < 2 ^ 32 :=
    lt_of_le_of_lt (Nat.pow_le_pow_right (by omega) hi) (by norm_num)
  have hlt : x ^^^ 2 ^ i < 2 ^ 32 := Nat.xor_lt_two_pow hxl hil
  have h1 := parity_error_iff x hxl
  have h2 := parity_error_iff (x ^^^ 2 ^ i) hlt
  have h3 := popcount_xor x (2 ^ i)
  have h4 := popcount_two_pow i
  cases hpx : parity_error x <;> cases hpy : parity_error (x ^^^ 2 ^ i) <;>
    rw [hpx] at h1 <;> rw [hpy] at h2 <;> simp_all <;> omega

theorem decode_date_err (f : Nat) (h : parity_error (dateSpan f) = true) :
    decode_date f = .error (.parityError (dateSpan f)) := by
  simp [decode_date, raise_on_parity_error, h]

theorem decode_date_ok (f : Nat) (h : parity_error (dateSpan f) = false) :
    decode_date f = .ok (decode_year f, decode_month f, decode_day f) := by
  simp [decode_date, raise_on_parity_error, h]

theorem decode_hour_err (f : Nat) (h : parity_error (hourSpan f) = true) :
    decode_hour f = .error (.parityError (hourSpan f)) := by
  simp [decode_hour, raise_on_parity_error, h]

theorem decode_hour_ok (f : Nat) (h : parity_error (hourSpan f) = false) :
    decode_hour f = .ok (((f >>> 29) &&& 15) + ((f >>> 33) &&& 3) * 10) := by
  simp [decode_hour, raise_on_parity_error, h]

theorem decode_minute_err (f : Nat) (h : parity_error (minuteSpan f) = true) :
    decode_minute f = .error (.parityError (minuteSpan f)) := by
  simp [decode_minute, raise_on_parity_error, h]

theorem decoderCall_date_err (f : Nat)
    (h : parity_error (dateSpan f) = true) :
    decoderCall f = .error (.parityError (dateSpan f)) := by
  unfold decoderCall
  rw [decode_date_err f h]
  rfl

theorem decoderCall_hour_err (f : Nat)
    (hd : parity_error (dateSpan f) = false)
    (hh : parity_error (hourSpan f) = true) :
    decoderCall f = .error (.parityError (hourSpan f)) := by
  unfold decoderCall
  rw [decode_date_ok f hd, decode_hour_err f hh]
  rfl

theorem decoderCall_minute_err (f : Nat)
    (hd : parity_error (dateSpan f) = false)
    (hh : parity_error (hourSpan f) = false)
    (hm : parity_error (minuteSpan f) = true) :
    decoderCall f = .error (.parityError (minuteSpan f)) := by
  unfold decoderCall
  rw [decode_date_ok f hd, decode_hour_ok f hh, decode_minute_err f hm]
  rfl

theorem minuteSpan_xor_out (f b : Nat) (h : b < 21 ∨ 29 ≤ b) :
    minuteSpan (f ^^^ 2 ^ b) = minuteSpan f := by
  rw [minuteSpan_mod, minuteSpan_mod]
  exact shift_mask_xor_outside f b 21 8 (by omega)

theorem hourSpan_xor_out (f b : Nat) (h : b < 29 ∨ 36 ≤ b) :
    hourSpan (f ^^^ 2 ^ b) = hourSpan f := by
  rw [hourSpan_mod, hourSpan_mod]
  exact shift_mask_xor_outside f b 29 7 (by omega)

theorem dateSpan_xor_out (f b : Nat) (h : b < 36 ∨ 59 ≤ b) :
    dateSpan (f ^^^ 2 ^ b) = dateSpan f := by
  rw [dateSpan_mod, dateSpan_mod]
  exact shift_mask_xor_outside f b 36 23 (by omega)

theorem minuteSpan_flip (f : Nat) :
    minuteSpan (f ^^^ 2 ^ 28) = minuteSpan f ^^^ 2 ^ 7 := by
  rw [minuteSpan_mod, minuteSpan_mod]
  simpa using shift_mask_xor_inside f 28 21 8 (by omega) (by omega)

theorem hourSpan_flip (f : Nat) :
    hourSpan (f ^^^ 2 ^ 35) = hourSpan f ^^^ 2 ^ 6 := by
  rw [hourSpan_mod, hourSpan_mod]
  simpa using shift_mask_xor_inside f 35 29 7 (by omega) (by omega)

theorem dateSpan_flip (f : Nat) :
    dateSpan (f ^^^ 2 ^ 58) = dateSpan f ^^^ 2 ^ 22 := by
  rw [dateSpan_mod, dateSpan_mod]
  simpa using shift_mask_xor_inside f 58 36 23 (by omega) (by omega)

/-- C7: flipping any single parity bit (bit 28, 35 or 58) of an otherwise
parity-valid frame makes the decode fail with a `ParityError` carrying the
corresponding span (minute, hour or date), and when several fields have
invalid parity only the first in the order date, hour, minute is reported,
no later field decode being attempted. -/
theorem parity_flip_errors (f : Nat)
    (hd : parity_error (dateSpan f) = false)
    (hh : parity_error (hourSpan f) = false)
    (hm : parity_error (minuteSpan f) = false) :
    decoderCall (f ^^^ 2 ^ 58) = .error (.parityError (dateSpan f ^^^ 2 ^ 22))
    ∧ decoderCall (f ^^^ 2 ^ 35) = .error (.parityError (hourSpan f ^^^ 2 ^ 6))
    ∧ decoderCall (f ^^^ 2 ^ 28)
        = .error (.parityError (minuteSpan f ^^^ 2 ^ 7))
    ∧ decoderCall (f ^^^ 2 ^ 58 ^^^ 2 ^ 35)
        = .error (.parityError (dateSpan f ^^^ 2 ^ 22))
    ∧ decoderCall (f ^^^ 2 ^ 35 ^^^ 2 ^ 28)
        = .error (.parityError (hourSpan f ^^^ 2 ^ 6))
    ∧ decoderCall (f ^^^ 2 ^ 58 ^^^ 2 ^ 35 ^^^ 2 ^ 28)
        = .error (.parityError (dateSpan f ^^^ 2 ^ 22)) := by
  have hdlt : dateSpan f < 2 ^ 23 := dateSpan_lt f
  have hhlt : hourSpan f < 2 ^ 23 := lt_trans (hourSpan_lt f) (by norm_num)
  have hmlt : minuteSpan f < 2 ^ 23 := lt_trans (minuteSpan_lt f) (by norm_num)
  have pd1 : parity_error (dateSpan f ^^^ 2 ^ 22) = true := by
    rw [parity_error_flip _ 22 hdlt (by omega), hd]
    rfl
  have ph1 : parity_error (hourSpan f ^^^ 2 ^ 6) = true := by
    rw [parity_error_flip _ 6 hhlt (by omega), hh]
    rfl
  have pm1 : parity_error (minuteSpan f ^^^ 2 ^ 7) = true := by
    rw [parity_error_flip _ 7 hmlt (by omega), hm]
    rfl
  refine ⟨?_, ?_, ?_, ?_, ?_, ?_⟩
  · have e : dateSpan (f ^^^ 2 ^ 58) = dateSpan f ^^^ 2 ^ 22 := dateSpan_flip f
    rw [← e] at pd1 ⊢
    exact decoderCall_date_err _ pd1
  · have ed : dateSpan (f ^^^ 2 ^ 35) = dateSpan f := dateSpan_xor_out f 35 (by omega)
    have eh : hourSpan (f ^^^ 2 ^ 35) = hourSpan f ^^^ 2 ^ 6 := hourSpan_flip f
    rw [← eh] at ph1 ⊢
    exact decoderCall_hour_err _ (by rw [ed]; exact hd) ph1
  · have ed : dateSpan (f ^^^ 2 ^ 28) = dateSpan f := dateSpan_xor_out f 28 (by omega)
    have eh : hourSpan (f ^^^ 2 ^ 28) = hourSpan f := hourSpan_xor_out f 28 (by omega)
    have em : minuteSpan (f ^^^ 2 ^ 28) = minuteSpan f ^^^ 2 ^ 7 := minuteSpan_flip f
    rw [← em] at pm1 ⊢
    exact decoderCall_minute_err _ (by rw [ed]; exact hd) (by rw [eh]; exact hh) pm1
  · have e : dateSpan (f ^^^ 2 ^ 58 ^^^ 2 ^ 35) = dateSpan f ^^^ 2 ^ 22 := by
      rw [dateSpan_xor_out (f ^^^ 2 ^ 58) 35 (by omega), dateSpan_flip f]
    rw [← e] at pd1 ⊢
    exact decoderCall_date_err _ pd1
  · have ed : dateSpan (f ^^^ 2 ^ 35 ^^^ 2 ^ 28) = dateSpan f := by
      rw [dateSpan_xor_out (f ^^^ 2 ^ 35) 28 (by omega),
        dateSpan_xor_out f 35 (by omega)]
    have eh : hourSpan (f ^^^ 2 ^ 35 ^^^ 2 ^ 28) = hourSpan f ^^^ 2 ^ 6 := by
      rw [hourSpan_xor_out (f ^^^ 2 ^ 35) 28 (by omega), hourSpan_flip f]
    rw [← eh] at ph1 ⊢
    exact decoderCall_hour_err _ (by rw [ed]; exact hd) ph1
  · have e : dateSpan (f ^^^ 2 ^ 58 ^^^ 2 ^ 35 ^^^ 2 ^ 28) = dateSpan f ^^^ 2 ^ 22 := by
      rw [dateSpan_xor_out (f ^^^ 2 ^ 58 ^^^ 2 ^ 35) 28 (by omega),
        dateSpan_xor_out (f ^^^ 2 ^ 58) 35 (by omega), dateSpan_flip f]
    rw [← e] at pd1 ⊢
    exact decoderCall_date_err _ pd1

theorem parity_flip_errors_witness :
    decoderCall (2097152 * (132 + 256 * (3 + 128 * 614418)) ^^^ 2 ^ 58)
        = .error (.parityError
            (dateSpan (2097152 * (132 + 256 * (3 + 128 * 614418))) ^^^ 2 ^ 22))
    ∧ decoderCall (2097152 * (132 + 256 * (3 + 128 * 614418)) ^^^ 2 ^ 35)
        = .error (.parityError
            (hourSpan (2097152 * (132 + 256 * (3 + 128 * 614418))) ^^^ 2 ^ 6)) := by
  have h := parity_flip_errors (2097152 * (132 + 256 * (3 + 128 * 614418)))
    (by decide) (by decide) (by decide)
  exact ⟨h.1, h.2.1⟩

/-- C10: for every pair of 59-bit frames that agree on bits 21 through 58,
the decoder produces identical results (the same decoded tuple or the same
error): bits 0 through 20 of the frame never influence any decoded field
or any parity check. -/
theorem decoder_ignores_low_bits (f g : Nat)
    (hf : f < 2 ^ 59) (hg : g < 2 ^ 59)
    (h : ∀ i < 59, 21 ≤ i → f.testBit i = g.testBit i) :
    decoderCall f = decoderCall g := by
  have hshift : f >>> 21 = g >>> 21 := by
    apply Nat.eq_of_testBit_eq
    intro i
    simp only [Nat.testBit_shiftRight]
    by_cases hi : 21 + i < 59
    · exact h (21 + i) hi (by omega)
    · have hfl : (2 : Nat) ^ 59 ≤ 2 ^ (21 + i) :=
        Nat.pow_le_pow_right (by omega) (by omega)
      rw [Nat.testBit_lt_two_pow (lt_of_lt_of_le hf hfl),
        Nat.testBit_lt_two_pow (lt_of_lt_of_le hg hfl)]
  have hk : ∀ k, 21 ≤ k → f >>> k = g >>> k := by
    intro k hk21
    have e : k = 21 + (k - 21) := by omega
    rw [e, Nat.shiftRight_add, Nat.shiftRight_add, hshift]
  simp only [decoderCall, decode_date, decode_hour, decode_minute,
    decode_year, decode_month, decode_day, minuteSpan, hourSpan, dateSpan,
    raise_on_parity_error, hk 21 (by omega), hk 25 (by omega),
    hk 29 (by omega), hk 33 (by omega), hk 36 (by omega), hk 40 (by omega),
    hk 45 (by omega), hk 49 (by omega), hk 50 (by omega), hk 54 (by omega)]

theorem decoder_ignores_low_bits_witness :
    decoderCall (2097152 * (132 + 256 * (3 + 128 * 614418)))
      = decoderCall (2097152 * (132 + 256 * (3 + 128 * 614418)) ^^^ 1) :=
  decoder_ignores_low_bits _ _ (by norm_num) (by decide)
    (by decide)

/-- `DCF77SyncDetector.JITTER` (milliseconds). -/
def JITTER : Int := 50

/-- `DCF77SyncDetector.TickBuffer.LEN`. -/
def TICK_BUFFER_LEN : Nat := 3

/-- `TickBuffer.add`: insert the tick at the front and drop the oldest
entry beyond length 3. -/
def tickBufferAdd (buffer : List Int) (tick : Int) : List Int :=
  (tick :: buffer).take TICK_BUFFER_LEN

/-- `TickBuffer.saturated`. -/
def saturated (buffer : List Int) : Bool :=
  decide (TICK_BUFFER_LEN ≤ buffer.length)

/-- The enumerated walk in `DCF77SyncDetector.calibrate`: every retained
entry `t` at index `i` must satisfy
`abs((i + 1) * 1000 - ticks_diff(tick, t)) ≤ JITTER`. -/
def calibrateCheck : List Int → Int → Nat → Bool
  | [], _, _ => true
  | t :: ts, tick, i =>
    if JITTER < |((i : Int) + 1) * 1000 - (tick - t)| then false
    else calibrateCheck ts tick (i + 1)

/-- `DCF77SyncDetector.calibrate`: on any mismatch reset the history,
otherwise prepend the edge. -/
def calibrate (buffer : List Int) (tick : Int) : List Int :=
  if calibrateCheck buffer tick 0 then tickBufferAdd buffer tick else []

/-- Outcome of `DCF77SyncDetector.__call__`: `invalid` models a raised
`InvalidTick`, `tick i` models a normal return from candidate delta
`i * 1000`. -/
inductive SyncResult where
  | invalid
  | tick (i : Nat)
  deriving DecidableEq

/-- The boolean `i > 1` that `DCF77SyncDetector.__call__` returns:
a gap (start-of-minute sync) was detected. -/
def SyncResult.isSync : SyncResult → Bool
  | .tick i => decide (1 < i)
  | .invalid => false

/-- `DCF77SyncDetector.__call__` with the candidate-delta loop over
`(1, 2, 3)` unrolled; returns the classification and the new history. -/
def syncCall (buffer : List Int) (tick : Int) : SyncResult × List Int :=
  if saturated buffer = false then
    (.invalid, calibrate buffer tick)
  else
    let last := buffer.headI
    let d1 : Int := 1 * 1000 - (tick - last)
    if |d1| < JITTER then (.tick 1, tickBufferAdd buffer tick)
    else if 0 < d1 then (.invalid, buffer)
    else
      let d2 : Int := 2 * 1000 - (tick - last)
      if |d2| < JITTER then (.tick 2, tickBufferAdd buffer tick)
      else if 0 < d2 then (.invalid, buffer)
      else
        let d3 : Int := 3 * 1000 - (tick - last)
        if |d3| < JITTER then (.tick 3, tickBufferAdd buffer tick)
        else if 0 < d3 then (.invalid, buffer)
        else (.invalid, [])

/-- Feed a list of edge timestamps through the sync detector, collecting
the classification of each edge and the final history. -/
def syncRunner (ticks : List Int) (buffer : List Int) :
    List SyncResult × List Int :=
  ticks.foldl
    (fun acc t =>
      let r := syncCall acc.2 t
      (acc.1 ++ [r.1], r.2))
    ([], buffer)

/-- C3: from an empty tracker, three edges spaced exactly 1000 ms apart
each classify as Invalid and complete calibration; a fourth edge 1000 ms
later classifies as Tick(1) with no sync, and a fourth edge 2000 ms
later classifies as a detected gap (start-of-minute sync). -/
theorem calibration_scenario :
    syncRunner [0, 1000, 2000] []
      = ([.invalid, .invalid, .invalid], [2000, 1000, 0])
    ∧ saturated [1000, 0] = false
    ∧ saturated [2000, 1000, 0] = true
    ∧ syncCall [2000, 1000, 0] 3000 = (.tick 1, [3000, 2000, 1000])
    ∧ (SyncResult.tick 1).isSync = false
    ∧ syncCall [2000, 1000, 0] 4000 = (.tick 2, [4000, 2000, 1000])
    ∧ (SyncResult.tick 2).isSync = true := by
  decide

/-- C4 counterexample: after calibration, an edge with delta 1000 + 51 ms
is rejected as Invalid, but the history is NOT cleared: the tracker keeps
its saturated 3-entry history and does not re-enter calibration (the
second candidate delta of 2000 ms is undershot, which raises before the
reset path is reached). -/
theorem jitter_no_recalibration :
    syncCall [2000, 1000, 0] 3051 = (.invalid, [2000, 1000, 0])
    ∧ saturated [2000, 1000, 0] = true
    ∧ ([2000, 1000, 0] : List Int) ≠ [] := by
  decide

/-- C4 (amended): for a calibrated tracker, an edge 1000 + 49 ms after the
last accepted edge is accepted as Tick(1), while an edge 1000 + 51 ms after
it is rejected as Invalid with the history left unchanged — the tracker
stays calibrated instead of recalibrating. -/
theorem jitter_boundary (last b c : Int) :
    syncCall [last, b, c] (last + 1049) = (.tick 1, [last + 1049, last, b])
    ∧ syncCall [last, b, c] (last + 1051) = (.invalid, [last, b, c])
    ∧ saturated [last, b, c] = true := by
  have e1 : last + 1049 - last = (1049 : Int) := by ring
  have e2 : last + 1051 - last = (1051 : Int) := by ring
  refine ⟨?_, ?_, by simp [saturated, TICK_BUFFER_LEN]⟩
  · unfold syncCall
    simp [saturated, TICK_BUFFER_LEN, List.headI, e1, JITTER,
      tickBufferAdd]
  · unfold syncCall
    simp [saturated, TICK_BUFFER_LEN, List.headI, e2, JITTER]

/-- `DCF77.min_buffer_size` default value. -/
def MIN_BUFFER_SIZE : Nat := 59

/-- The bit-reversal loop in `DCF77.beacon`:
`for i in range(59): beacon = (beacon << 1) + ((buffer >> i) & 1)`. -/
def extractBeacon (buffer : Nat) : Nat :=
  (List.range 59).foldl
    (fun beacon i => (beacon <<< 1) + ((buffer >>> i) &&& 1)) 0

/-- `DCF77.beacon`: raise `IncompleteBeaconError` while fewer than 59 bits
are buffered, otherwise reverse the low 59 accumulated bits. -/
def beacon (buffer : Nat) : Except DCF77Err Nat :=
  if buffer < 1 <<< MIN_BUFFER_SIZE then .error (.incompleteBeacon buffer)
  else .ok (extractBeacon buffer)

/-- `DCF77.__read__` buffer update: `(buffer << 1) + value`. -/
def bufferPush (buffer value : Nat) : Nat := (buffer <<< 1) + value

/-- Push a list of sampled bits (oldest first) into the buffer. -/
def pushBits (buffer : Nat) (bs : List Nat) : Nat := bs.foldl bufferPush buffer

theorem extractBeacon_aux (buffer n : Nat) :
    ((List.range n).foldl
        (fun beacon i => (beacon <<< 1) + ((buffer >>> i) &&& 1)) 0) < 2 ^ n
    ∧ ∀ i, i < n →
        (((List.range n).foldl
            (fun beacon i => (beacon <<< 1) + ((buffer >>> i) &&& 1)) 0)).testBit i
          = buffer.testBit (n - 1 - i) := by
  induction n with
  | zero => exact ⟨by norm_num, fun i hi => absurd hi (by omega)⟩
  | succ n ih =>
    obtain ⟨ihlt, ihbit⟩ := ih
    set A := (List.range n).foldl
      (fun beacon i => (beacon <<< 1) + ((buffer >>> i) &&& 1)) 0 with hA
    have hstep : (List.range (n + 1)).foldl
        (fun beacon i => (beacon <<< 1) + ((buffer >>> i) &&& 1)) 0
        = (A <<< 1) + ((buffer >>> n) &&& 1) := by
      rw [List.range_succ, List.foldl_append]
      simp only [List.foldl_cons, List.foldl_nil]
    have hsh : A <<< 1 = 2 * A := by
      rw [Nat.shiftLeft_eq]
      ring
    have hbit : (buffer >>> n) &&& 1 = buffer / 2 ^ n % 2 := by
      rw [Nat.shiftRight_eq_div_pow, Nat.and_one_is_mod]
    have hble : (buffer >>> n) &&& 1 ≤ 1 := by
      rw [hbit]
      omega
    constructor
    · rw [hstep, hsh]
      have : 2 ^ (n + 1) = 2 * 2 ^ n := by ring
      omega
    · intro i hi
      rw [hstep, hsh]
      cases i with
      | zero =>
        have hmod : (2 * A + ((buffer >>> n) &&& 1)) % 2
            = (buffer >>> n) &&& 1 := by omega
        have htn : buffer.testBit n = decide (buffer / 2 ^ n % 2 = 1) :=
          Nat.testBit_to_div_mod
        have hzn : n + 1 - 1 - 0 = n := by omega
        rw [hzn, Nat.testBit_zero, hmod, hbit, htn]
      | succ j =>
        rw [Nat.testBit_succ]
        have hdiv : (2 * A + ((buffer >>> n) &&& 1)) / 2 = A := by omega
        rw [hdiv]
        have : n + 1 - 1 - (j + 1) = n - 1 - j := by omega
        rw [this]
        exact ihbit j (by omega)

/-- C5: once the accumulator holds at least 59 pushed bits
(`buffer ≥ 2 ^ 59`), `DCF77.beacon` returns the bit-reversal of the 59
most recently pushed bits as a 59-bit right-aligned value: bit `i` of the
result is bit `58 - i` of the accumulator, so bit 0 is the earliest
received of those bits and bit 58 the most recently pushed one. -/
theorem beacon_reverses (buffer : Nat) (h : 2 ^ 59 ≤ buffer) :
    beacon buffer = .ok (extractBeacon buffer)
    ∧ extractBeacon buffer < 2 ^ 59
    ∧ ∀ i, i < 59 →
        (extractBeacon buffer).testBit i = buffer.testBit (58 - i) := by
  obtain ⟨hlt, hbits⟩ := extractBeacon_aux buffer 59
  refine ⟨?_, hlt, fun i hi => hbits i hi⟩
  rw [beacon]
  have hno : ¬ (buffer < 1 <<< MIN_BUFFER_SIZE) := by
    rw [Nat.shiftLeft_eq, MIN_BUFFER_SIZE]
    omega
  rw [if_neg hno]

theorem beacon_reverses_witness :
    beacon (2 ^ 59) = .ok (extractBeacon (2 ^ 59))
    ∧ extractBeacon (2 ^ 59) < 2 ^ 59 :=
  ⟨(beacon_reverses (2 ^ 59) (by norm_num)).1,
    (beacon_reverses (2 ^ 59) (by norm_num)).2.1⟩

theorem pushBits_bounds (bs : List Nat) (buffer k : Nat)
    (hv : ∀ v ∈ bs, v ≤ 1) (hlo : 2 ^ k ≤ buffer) (hhi : buffer < 2 ^ (k + 1)) :
    2 ^ (k + bs.length) ≤ pushBits buffer bs
    ∧ pushBits buffer bs < 2 ^ (k + bs.length + 1) := by
  induction bs generalizing buffer k with
  | nil => simpa [pushBits] using ⟨hlo, hhi⟩
  | cons v vs ih =>
    have hv1 : v ≤ 1 := hv v (by simp)
    have hsh : buffer <<< 1 = 2 * buffer := by
      rw [Nat.shiftLeft_eq]
      ring
    have hpow : (2 : Nat) ^ (k + 2) = 2 * 2 ^ (k + 1) := by ring
    have hpow1 : (2 : Nat) ^ (k + 1) = 2 * 2 ^ k := by ring
    have h1 : 2 ^ (k + 1) ≤ bufferPush buffer v := by
      rw [bufferPush, hsh]
      omega
    have h2 : bufferPush buffer v < 2 ^ (k + 1 + 1) := by
      rw [bufferPush, hsh]
      omega
    have hrec := ih (bufferPush buffer v) (k + 1)
      (fun w hw => hv w (by simp [hw])) h1 h2
    have hfold : pushBits buffer (v :: vs) = pushBits (bufferPush buffer v) vs := by
      simp [pushBits]
    have e1 : k + 1 + vs.length = k + (vs.length + 1) := by omega
    rw [hfold]
    rw [e1] at hrec
    simpa using hrec

/-- C6: a buffer built by a reset followed by fewer than 59 bit pushes has
accumulator below `2 ^ 59` and frame extraction fails with the
incomplete-frame error; with 59 or more pushes it succeeds; completeness
is exactly the magnitude test `2 ^ 59 ≤ accumulator`. -/
theorem incomplete_beacon (bs : List Nat) (hv : ∀ v ∈ bs, v ≤ 1) :
    (bs.length < 59 →
      beacon (pushBits 1 bs) = .error (.incompleteBeacon (pushBits 1 bs)))
    ∧ (59 ≤ bs.length →
      beacon (pushBits 1 bs) = .ok (extractBeacon (pushBits 1 bs)))
    ∧ (2 ^ 59 ≤ pushBits 1 bs ↔ 59 ≤ bs.length) := by
  have hb := pushBits_bounds bs 1 0 hv (by norm_num) (by norm_num)
  simp only [Nat.zero_add] at hb
  have hshift : (1 : Nat) <<< MIN_BUFFER_SIZE = 2 ^ 59 := by
    rw [Nat.shiftLeft_eq, MIN_BUFFER_SIZE]
    ring
  refine ⟨?_, ?_, ?_⟩
  · intro hlen
    have hlt : pushBits 1 bs < 2 ^ 59 := by
      have : (2 : Nat) ^ (bs.length + 1) ≤ 2 ^ 59 :=
        Nat.pow_le_pow_right (by omega) (by omega)
      omega
    rw [beacon, if_pos (by rw [hshift]; exact hlt)]
  · intro hlen
    have hge : 2 ^ 59 ≤ pushBits 1 bs := by
      have : (2 : Nat) ^ 59 ≤ 2 ^ bs.length :=
        Nat.pow_le_pow_right (by omega) hlen
      omega
    rw [beacon, if_neg (by rw [hshift]; omega)]
  · constructor
    · intro hge
      by_contra hlen
      have : (2 : Nat) ^ (bs.length + 1) ≤ 2 ^ 59 :=
        Nat.pow_le_pow_right (by omega) (by omega)
      omega
    · intro hlen
      have : (2 : Nat) ^ 59 ≤ 2 ^ bs.length :=
        Nat.pow_le_pow_right (by omega) hlen
      omega

theorem incomplete_beacon_witness :
    beacon (pushBits 1 [1, 0, 1]) = .error (.incompleteBeacon (pushBits 1 [1, 0, 1])) :=
  (incomplete_beacon [1, 0, 1] (by decide)).1 (by norm_num)

/-- The mutable state of a `DCF77` engine instance: the bit-buffer
accumulator and the sync detector history. -/
structure EngineState where
  buffer : Nat
  syncBuffer : List Int
  deriving DecidableEq

/-- Events reported through the `DCF77Handler` callbacks. -/
inductive Event where
  | onSync (ts : Timestamp)
  | onTick (value : Nat)
  | onTickError
  | onSyncError (e : DCF77Err)
  deriving DecidableEq

/-- `DCF77.__tick__`: classify the edge; on `InvalidTick` report a tick
error and return without scheduling; on a sync tick decode the previous
beacon (reporting `on_sync` or `on_sync_error` and resetting the buffer);
finally arm the one-shot timer with period
`150 - ticks_diff(ticks_ms(), tick)`.  `elapsed` stands for
`ticks_diff(ticks_ms(), tick)`, the milliseconds already consumed by edge
handling; the third component is the period of the scheduled sample read,
or `none` when no sample was scheduled. -/
def tickStep (st : EngineState) (tick : Int) (elapsed : Int) :
    EngineState × List Event × Option Int :=
  match syncCall st.syncBuffer tick with
  | (.invalid, sb) => ({ st with syncBuffer := sb }, [.onTickError], none)
  | (.tick i, sb) =>
    if 1 < i then
      match beacon st.buffer >>= decoderCall with
      | .ok ts =>
        ({ buffer := 1, syncBuffer := sb }, [.onSync ts], some (150 - elapsed))
      | .error e =>
        ({ buffer := 1, syncBuffer := sb }, [.onSyncError e],
          some (150 - elapsed))
    else ({ st with syncBuffer := sb }, [], some (150 - elapsed))

/-- `DCF77.__read__`: push the sampled line level and report it. -/
def readStep (st : EngineState) (value : Nat) : EngineState × List Event :=
  ({ st with buffer := bufferPush st.buffer value }, [.onTick value])

/-- Modelled from the spec (Sample Scheduler, section 4.4): the deferred
sample callback fires at `max 0 (150 - elapsed)` milliseconds from
scheduling time.  The source passes `150 - elapsed` to `Timer.init`
without clamping; this definition follows the words of the spec for
comparison. -/
def specSamplePeriod (elapsed : Int) : Int := max 0 (150 - elapsed)

/-- C9: whenever the cadence tracker classifies an edge as Invalid
(including every edge during calibration), `__tick__` emits exactly one
tick-error event, leaves the bit-buffer accumulator unchanged, and does
not schedule a deferred sample read. -/
theorem invalid_tick_effect (st : EngineState) (tick elapsed : Int)
    (h : (syncCall st.syncBuffer tick).1 = .invalid) :
    tickStep st tick elapsed
      = ({ st with syncBuffer := (syncCall st.syncBuffer tick).2 },
          [.onTickError], none) := by
  unfold tickStep
  rcases hsc : syncCall st.syncBuffer tick with ⟨r, sb⟩
  rw [hsc] at h
  simp only at h
  subst h
  rfl

theorem invalid_tick_effect_witness :
    tickStep ⟨1, []⟩ 0 0
      = (⟨1, (syncCall [] 0).2⟩, [.onTickError], none) :=
  invalid_tick_effect ⟨1, []⟩ 0 0 (by decide)

/-- C8 counterexample: with a calibrated tracker, an ordinary tick whose
edge handling consumed 200 ms schedules the sample timer with period
`150 - 200 = -50`, not the clamped `max 0 (150 - 200) = 0` the claim
states. -/
theorem sample_period_not_clamped :
    (tickStep ⟨1, [2000, 1000, 0]⟩ 3000 200).2.2 = some (-50)
    ∧ specSamplePeriod 200 = 0
    ∧ ((-50 : Int) ≠ 0) := by
  decide

/-- C8 (amended): whenever `__tick__` schedules a deferred sample read,
the period is exactly `150 - elapsed` — compensating for the processing
time already consumed, never a fixed 150 ms — and this agrees with the
spec value `max 0 (150 - elapsed)` whenever `elapsed ≤ 150`; the code
performs no clamping at 0 for larger elapsed times. -/
theorem sample_period (st : EngineState) (tick elapsed p : Int)
    (h : (tickStep st tick elapsed).2.2 = some p) :
    p = 150 - elapsed ∧ (elapsed ≤ 150 → p = specSamplePeriod elapsed) := by
  have hp : p = 150 - elapsed := by
    unfold tickStep at h
    rcases hsc : syncCall st.syncBuffer tick with ⟨r, sb⟩
    rw [hsc] at h
    cases r with
    | invalid => simp at h
    | tick i =>
      by_cases hi : 1 < i
      · rcases hb : beacon st.buffer >>= decoderCall with ts | e <;>
          simp [hi, hb] at h <;> omega
      · simp [hi] at h
        omega
  refine ⟨hp, fun hle => ?_⟩
  rw [hp, specSamplePeriod]
  omega

theorem sample_period_witness :
    (tickStep ⟨1, [2000, 1000, 0]⟩ 3000 10).2.2 = some 140
    ∧ ((140 : Int) = 150 - 10
      ∧ ((10 : Int) ≤ 150 → (140 : Int) = specSamplePeriod 10)) :=
  ⟨by decide, sample_period ⟨1, [2000, 1000, 0]⟩ 3000 10 140 (by decide)⟩
